import Mathlib

/-!
Shallow embedding of the `SimpleGraph` adjacency-matrix container from
`src/simple_graph.rs`.

Modelling conventions:
- `Vec<Option<N>>` becomes `List (Option N)`; `Vec<Vec<Option<E>>>` becomes
  `List (List (Option E))`.
- A Rust panic (out-of-bounds indexing, failed `assert!`, `unwrap` of `None`)
  is modelled by returning `none` from the operation; an operation that cannot
  panic returns its value directly.
- `Vec::resize(new_len, value)` is modelled by `resize`, which pads with
  copies of `value` or truncates so that the result has length `new_len`.
- Mutating methods of the Rust container are state-passing functions
  returning the produced identifier/payload together with the updated graph.
-/

namespace Graphs

/-- Opaque struct which represents a node in the graph (`NodeID(usize)`). -/
structure NodeID where
  id : Nat
  deriving DecidableEq, Repr

/-- Opaque struct which represents an edge in the graph (`EdgeID((usize, usize))`). -/
structure EdgeID where
  id : Nat × Nat
  deriving DecidableEq, Repr

/-- The simple directed graph: nodes in a `Vec<Option<N>>`, edges in a
`Vec<Vec<Option<E>>>` adjacency matrix. -/
structure SimpleGraph (N E : Type) where
  nodes : List (Option N)
  edges : List (List (Option E))
  deriving DecidableEq, Repr

variable {N E : Type}

/-- Rust `SimpleGraph::new`: both vectors start empty. -/
def SimpleGraph.new : SimpleGraph N E :=
  { nodes := [], edges := [] }

/-- Rust `Vec::resize(n, v)`: grow with copies of `v`, or truncate, to length `n`. -/
def resize (l : List α) (n : Nat) (v : α) : List α :=
  if l.length < n then l ++ List.replicate (n - l.length) v else l.take n

/-- Rust `add_node`: push `Some(data)` and return `NodeID(self.nodes.len() - 1)`. -/
def add_node (g : SimpleGraph N E) (data : N) : NodeID × SimpleGraph N E :=
  let nodes := g.nodes ++ [some data]
  (⟨nodes.length - 1⟩, { g with nodes := nodes })

/-- Rust `add_edge`: grow the matrix so that row `a` and column `b` exist, write
`Some(data)` at `(a, b)`, and return `EdgeID((a, b))`.  The two `if`s mirror
the two guarded `resize` calls of the source. -/
def add_edge (g : SimpleGraph N E) (a b : NodeID) (data : E) :
    EdgeID × SimpleGraph N E :=
  let a := a.id
  let b := b.id
  let maxId := max a b
  let edges := if g.edges.length ≤ maxId then resize g.edges (maxId + 1) [] else g.edges
  -- indexing `self.edges[a]` is in bounds: the guarded resize left at least maxId+1 rows
  let row := edges.getD a []
  let row := if row.length ≤ b then resize row (b + 1) none else row
  let edges := edges.set a (row.set b (some data))
  (⟨(a, b)⟩, { g with edges := edges })

/-- The second loop of `remove_node`: `for from_node in &self.edges {
assert!(from_node[id].is_none()); }`.  `none` models the panic (either the
out-of-bounds index `from_node[id]` or the failed assert). -/
def checkColumn (rows : List (List (Option E))) (id : Nat) : Option Unit :=
  match rows with
  | [] => some ()
  | fromNode :: rest =>
    match fromNode[id]? with
    | none => none
    | some s => if s.isNone then checkColumn rest id else none

/-- Rust `remove_node`: assert the outgoing row and incoming column are all empty,
then `replace(&mut self.nodes[id], None).unwrap()`.  Every panic of the source
(out-of-bounds row access, failed assert, unwrap of an empty slot) is `none`. -/
def remove_node (g : SimpleGraph N E) (n : NodeID) : Option (N × SimpleGraph N E) :=
  match g.edges[n.id]? with
  | none => none
  | some row =>
    if row.all (fun toNode => toNode.isNone) then
      match checkColumn g.edges n.id with
      | none => none
      | some _ =>
        match g.nodes[n.id]? with
        | none => none
        | some none => none
        | some (some v) => some (v, { g with nodes := g.nodes.set n.id none })
    else none

/-- Rust `remove_edge`: `replace(&mut self.edges[id_a][id_b], None).unwrap()`. -/
def remove_edge (g : SimpleGraph N E) (e : EdgeID) : Option (E × SimpleGraph N E) :=
  match g.edges[e.id.1]? with
  | none => none
  | some row =>
    match row[e.id.2]? with
    | none => none
    | some none => none
    | some (some v) =>
      some (v, { g with edges := g.edges.set e.id.1 (row.set e.id.2 none) })

/-- Rust `node`: `self.nodes[id].as_ref().unwrap()`. -/
def node (g : SimpleGraph N E) (n : NodeID) : Option N :=
  match g.nodes[n.id]? with
  | none => none
  | some s => s

/-- Rust `edge`: `self.edges[id_a][id_b].as_ref().unwrap()`. -/
def edge (g : SimpleGraph N E) (e : EdgeID) : Option E :=
  match g.edges[e.id.1]? with
  | none => none
  | some row =>
    match row[e.id.2]? with
    | none => none
    | some s => s

/-- Rust `edge_to`: pure projection of the destination index. -/
def edge_to (_g : SimpleGraph N E) (e : EdgeID) : NodeID :=
  ⟨e.id.2⟩

/-- Rust `edge_from`: pure projection of the source index. -/
def edge_from (_g : SimpleGraph N E) (e : EdgeID) : NodeID :=
  ⟨e.id.1⟩

/-- Rust `edges_from`: enumerate row `id`, keep a handle for each occupied slot.
`self.edges[id]` panics (here: `none`) when `id` is out of range. -/
def edges_from (g : SimpleGraph N E) (n : NodeID) : Option (List EdgeID) :=
  match g.edges[n.id]? with
  | none => none
  | some row =>
    some (row.enum.filterMap fun p =>
      match p.2 with
      | some _ => some ⟨(n.id, p.1)⟩
      | none => none)

/-- A concrete reachable state: three nodes, edge 0→1 holding 10 and edge
0→2 holding 20 (the spec's test scenario after both `add_edge` calls). -/
def sample : SimpleGraph Unit Nat :=
  { nodes := [some (), some (), some ()],
    edges := [[none, some 10, some 20], [], []] }

/-- A concrete state with square rows: three nodes, a single edge 0→2
holding 5, every row padded to length 3. -/
def sample2 : SimpleGraph Unit Nat :=
  { nodes := [some (), some (), some ()],
    edges := [[none, none, some 5], [none, none, none], [none, none, none]] }

/-! ### Helper lemmas about `resize` -/

lemma resize_length (l : List α) (n : Nat) (v : α) : (resize l n v).length = n := by
  unfold resize
  split
  · simp only [List.length_append, List.length_replicate]
    omega
  · simp only [List.length_take]
    omega

lemma resize_getElem?_lt (l : List α) (n : Nat) (v : α) (i : Nat)
    (h1 : i < l.length) (h2 : i < n) : (resize l n v)[i]? = l[i]? := by
  unfold resize
  split
  · exact List.getElem?_append_left h1
  · rw [List.getElem?_take]
    simp [h2]

lemma resize_getElem?_pad (l : List α) (n : Nat) (v : α) (i : Nat)
    (h1 : l.length ≤ i) (h2 : i < n) : (resize l n v)[i]? = some v := by
  unfold resize
  split
  · rw [List.getElem?_append_right h1]
    simp only [List.getElem?_replicate]
    rw [if_pos (by omega)]
  · omega

/-! ### Characterization of the `add_edge` result state -/

/-- List-level core of `add_edge`: `E1` is the resized outer vector, `R0` the
row fetched at `A`, `R1` the resized row; the lemma characterizes the final
matrix `E1.set A (R1.set B (some v))`. -/
lemma write_state (L E1 : List (List (Option E))) (R0 R1 : List (Option E))
    (A B : Nat) (v : E)
    (hE1 : E1 = if L.length ≤ max A B then resize L (max A B + 1) [] else L)
    (hR0 : R0 = E1.getD A [])
    (hR1 : R1 = if R0.length ≤ B then resize R0 (B + 1) none else R0) :
    (E1.set A (R1.set B (some v))).length = max L.length (max A B + 1) ∧
    (E1.set A (R1.set B (some v)))[A]? = some (R1.set B (some v)) ∧
    (R1.set B (some v)).length = max (L.getD A []).length (B + 1) ∧
    (R1.set B (some v))[B]? = some (some v) ∧
    (∀ j, j ≠ B → j < (L.getD A []).length →
      (R1.set B (some v))[j]? = (L.getD A [])[j]?) ∧
    (∀ j, j ≠ B → (L.getD A []).length ≤ j → j < B + 1 →
      (R1.set B (some v))[j]? = some none) ∧
    (∀ i, i ≠ A → i < L.length → (E1.set A (R1.set B (some v)))[i]? = L[i]?) ∧
    (∀ i, i ≠ A → L.length ≤ i → i < (E1.set A (R1.set B (some v))).length →
      (E1.set A (R1.set B (some v)))[i]? = some []) := by
  have f1 : E1.length = max L.length (max A B + 1) := by
    rw [hE1]
    split
    · rw [resize_length]; omega
    · omega
  have f2 : A < E1.length := by omega
  have f3 : ∀ i, i < L.length → E1[i]? = L[i]? := by
    intro i hi
    rw [hE1]
    split
    · exact resize_getElem?_lt _ _ _ _ hi (by omega)
    · rfl
  have f4 : ∀ i, L.length ≤ i → i < E1.length → E1[i]? = some [] := by
    intro i hi hi2
    rw [f1] at hi2
    rw [hE1]
    split
    · exact resize_getElem?_pad _ _ _ _ hi (by omega)
    · exact absurd hi (by omega)
  have f5 : R0 = L.getD A [] := by
    rw [hR0]
    rcases Nat.lt_or_ge A L.length with h | h
    · rw [List.getD_eq_getElem?_getD, List.getD_eq_getElem?_getD, f3 A h]
    · rw [List.getD_eq_getElem?_getD, List.getD_eq_getElem?_getD, f4 A h f2,
        List.getElem?_eq_none h]
      rfl
  have g1 : R1.length = max R0.length (B + 1) := by
    rw [hR1]
    split
    · rw [resize_length]; omega
    · omega
  have g2 : B < R1.length := by omega
  have g3 : ∀ j, j < R0.length → R1[j]? = R0[j]? := by
    intro j hj
    rw [hR1]
    split
    · exact resize_getElem?_lt _ _ _ _ hj (by omega)
    · rfl
  have g4 : ∀ j, R0.length ≤ j → j < B + 1 → R1[j]? = some none := by
    intro j hj hj2
    rw [hR1]
    split
    · exact resize_getElem?_pad _ _ _ _ hj hj2
    · exact absurd hj (by omega)
  refine ⟨?_, ?_, ?_, ?_, ?_, ?_, ?_, ?_⟩
  · rw [List.length_set, f1]
  · exact List.getElem?_set_self f2
  · rw [List.length_set, g1, f5]
  · exact List.getElem?_set_self g2
  · intro j hj hj2
    rw [List.getElem?_set_ne (Ne.symm hj), g3 j (by rw [f5]; exact hj2), f5]
  · intro j hj hj2 hj3
    rw [List.getElem?_set_ne (Ne.symm hj)]
    exact g4 j (by rw [f5]; exact hj2) hj3
  · intro i hi hi2
    rw [List.getElem?_set_ne (Ne.symm hi)]
    exact f3 i hi2
  · intro i hi hi2 hi3
    rw [List.length_set] at hi3
    rw [List.getElem?_set_ne (Ne.symm hi)]
    exact f4 i hi2 hi3

/-- Full characterization of the state after `add_edge`: the returned handle,
untouched nodes, grown matrix dimensions, the written row `R` (its written
slot, preserved old slots, padding), and preserved / newly created rows. -/
lemma add_edge_state (g : SimpleGraph N E) (a b : NodeID) (v : E) :
    ∃ R,
      (add_edge g a b v).1 = ⟨(a.id, b.id)⟩ ∧
      (add_edge g a b v).2.nodes = g.nodes ∧
      (add_edge g a b v).2.edges.length = max g.edges.length (max a.id b.id + 1) ∧
      (add_edge g a b v).2.edges[a.id]? = some R ∧
      R.length = max (g.edges.getD a.id []).length (b.id + 1) ∧
      R[b.id]? = some (some v) ∧
      (∀ j, j ≠ b.id → j < (g.edges.getD a.id []).length →
        R[j]? = (g.edges.getD a.id [])[j]?) ∧
      (∀ j, j ≠ b.id → (g.edges.getD a.id []).length ≤ j → j < b.id + 1 →
        R[j]? = some none) ∧
      (∀ i, i ≠ a.id → i < g.edges.length →
        (add_edge g a b v).2.edges[i]? = g.edges[i]?) ∧
      (∀ i, i ≠ a.id → g.edges.length ≤ i → i < (add_edge g a b v).2.edges.length →
        (add_edge g a b v).2.edges[i]? = some []) := by
  obtain ⟨h1, h2, h3, h4, h5, h6, h7, h8⟩ :=
    write_state g.edges
      (if g.edges.length ≤ max a.id b.id then resize g.edges (max a.id b.id + 1) []
       else g.edges)
      ((if g.edges.length ≤ max a.id b.id then resize g.edges (max a.id b.id + 1) []
        else g.edges).getD a.id [])
      _ a.id b.id v rfl rfl rfl
  exact ⟨_, rfl, rfl, h1, h2, h3, h4, h5, h6, h7, h8⟩

/-- Reading an edge slot whose row and column are both present. -/
lemma edge_eq (g : SimpleGraph N E) (x y : Nat) (R : List (Option E))
    (hR : g.edges[x]? = some R) (s : Option E) (hs : R[y]? = some s) :
    edge g ⟨(x, y)⟩ = s := by
  simp [edge, hR, hs]

lemma lt_length_of_getD_isSome (R : List (Option E)) (j : Nat)
    (h : (R.getD j none).isSome) : j < R.length := by
  by_contra hc
  rw [List.getD_eq_getElem?_getD, List.getElem?_eq_none (by omega)] at h
  simp at h

/-- Membership in the `edges_from` row scan, with the enumeration started at
offset `k`. -/
lemma mem_enumFrom_filterMap (row : List (Option E)) (k nid : Nat) (e : EdgeID) :
    (e ∈ (row.enumFrom k).filterMap (fun p =>
        match p.2 with
        | some _ => some (⟨(nid, p.1)⟩ : EdgeID)
        | none => none)) ↔
      ∃ j, j < row.length ∧ (row.getD j none).isSome ∧ e = ⟨(nid, k + j)⟩ := by
  induction row generalizing k with
  | nil =>
    simp [List.enumFrom]
  | cons x xs ih =>
    cases x with
    | some y =>
      have hcons : ((some y :: xs).enumFrom k).filterMap (fun p =>
          match p.2 with
          | some _ => some (⟨(nid, p.1)⟩ : EdgeID)
          | none => none) =
          ⟨(nid, k)⟩ :: (xs.enumFrom (k + 1)).filterMap (fun p =>
            match p.2 with
            | some _ => some (⟨(nid, p.1)⟩ : EdgeID)
            | none => none) := rfl
      rw [hcons, List.mem_cons, ih (k + 1)]
      constructor
      · rintro (rfl | ⟨j, hj, hs, rfl⟩)
        · exact ⟨0, by simp, by simp, by simp⟩
        · refine ⟨j + 1, by simpa using hj, by simpa using hs, ?_⟩
          have harith : (k + 1) + j = k + (j + 1) := by omega
          rw [harith]
      · rintro ⟨j, hj, hs, rfl⟩
        cases j with
        | zero =>
          left
          simp
        | succ j' =>
          right
          refine ⟨j', by simpa using hj, by simpa using hs, ?_⟩
          have harith : k + (j' + 1) = (k + 1) + j' := by omega
          rw [harith]
    | none =>
      have hcons : ((none :: xs).enumFrom k).filterMap (fun p =>
          match p.2 with
          | some _ => some (⟨(nid, p.1)⟩ : EdgeID)
          | none => none) =
          (xs.enumFrom (k + 1)).filterMap (fun p =>
            match p.2 with
            | some _ => some (⟨(nid, p.1)⟩ : EdgeID)
            | none => none) := rfl
      rw [hcons, ih (k + 1)]
      constructor
      · rintro ⟨j, hj, hs, rfl⟩
        refine ⟨j + 1, by simpa using hj, by simpa using hs, ?_⟩
        have harith : (k + 1) + j = k + (j + 1) := by omega
        rw [harith]
      · rintro ⟨j, hj, hs, rfl⟩
        cases j with
        | zero =>
          simp at hs
        | succ j' =>
          refine ⟨j', by simpa using hj, by simpa using hs, ?_⟩
          have harith : k + (j' + 1) = (k + 1) + j' := by omega
          rw [harith]

/-- The `edges_from` row scan produces handles with strictly increasing
destination indices. -/
lemma pairwise_enumFrom_filterMap (row : List (Option E)) (k nid : Nat) :
    ((row.enumFrom k).filterMap (fun p =>
        match p.2 with
        | some _ => some (⟨(nid, p.1)⟩ : EdgeID)
        | none => none)).Pairwise (fun x y => x.id.2 < y.id.2) := by
  induction row generalizing k with
  | nil => exact List.Pairwise.nil
  | cons x xs ih =>
    cases x with
    | none => exact ih (k + 1)
    | some y =>
      have hcons : ((some y :: xs).enumFrom k).filterMap (fun p =>
          match p.2 with
          | some _ => some (⟨(nid, p.1)⟩ : EdgeID)
          | none => none) =
          ⟨(nid, k)⟩ :: (xs.enumFrom (k + 1)).filterMap (fun p =>
            match p.2 with
            | some _ => some (⟨(nid, p.1)⟩ : EdgeID)
            | none => none) := rfl
      rw [hcons, List.pairwise_cons]
      refine ⟨?_, ih (k + 1)⟩
      intro e he
      obtain ⟨j, hj, hs, rfl⟩ := (mem_enumFrom_filterMap xs (k + 1) nid e).mp he
      show k < (k + 1) + j
      omega

/-- Unfolding `edges_from` on an in-range row to the row scan. -/
lemma edges_from_eq (g : SimpleGraph N E) (n : NodeID) (R : List (Option E))
    (hR : g.edges[n.id]? = some R) :
    edges_from g n = some (R.enum.filterMap (fun p =>
      match p.2 with
      | some _ => some (⟨(n.id, p.1)⟩ : EdgeID)
      | none => none)) := by
  simp [edges_from, hR]

/-- If some row holds an occupied slot in column `id`, the incoming-edge scan
of `remove_node` hits a panic (a failed assert, or an earlier shorter row). -/
lemma checkColumn_none (rows : List (List (Option E))) (id : Nat)
    (h : ∃ row ∈ rows, (row.getD id none).isSome) : checkColumn rows id = none := by
  induction rows with
  | nil => simp at h
  | cons r rest ih =>
    obtain ⟨row, hmem, hsome⟩ := h
    rw [List.mem_cons] at hmem
    unfold checkColumn
    cases hr : r[id]? with
    | none => rfl
    | some s =>
      show (if s.isNone = true then checkColumn rest id else none) = none
      by_cases hs : s.isNone
      · rw [if_pos hs]
        refine ih ⟨row, ?_, hsome⟩
        rcases hmem with rfl | hmem
        · exfalso
          rw [List.getD_eq_getElem?_getD, hr] at hsome
          cases s
          · simp at hsome
          · simp at hs
        · exact hmem
      · rw [if_neg hs]

/-- Inversion for a successful `remove_edge`: the addressed row and slot were
present and occupied, and only that slot is emptied. -/
lemma remove_edge_some (g : SimpleGraph N E) (e : EdgeID) (p : E × SimpleGraph N E)
    (h : remove_edge g e = some p) :
    ∃ row, g.edges[e.id.1]? = some row ∧ row[e.id.2]? = some (some p.1) ∧
      p.2 = { g with edges := g.edges.set e.id.1 (row.set e.id.2 none) } := by
  unfold remove_edge at h
  split at h
  · exact absurd h (by simp)
  · rename_i row hrow
    split at h
    · exact absurd h (by simp)
    · exact absurd h (by simp)
    · rename_i v hv
      cases h
      exact ⟨row, hrow, hv, rfl⟩

/-- Inversion for a successful `remove_node`: the edge matrix is untouched and
only the node slot is emptied. -/
lemma remove_node_some (g : SimpleGraph N E) (n : NodeID) (p : N × SimpleGraph N E)
    (h : remove_node g n = some p) :
    p.2.edges = g.edges ∧ p.2.nodes = g.nodes.set n.id none := by
  unfold remove_node at h
  split at h
  · exact absurd h (by simp)
  · split at h
    · split at h
      · exact absurd h (by simp)
      · split at h
        · exact absurd h (by simp)
        · exact absurd h (by simp)
        · cases h
          exact ⟨rfl, rfl⟩
    · exact absurd h (by simp)

/-! ### Claim theorems -/

/-- Claim C5: for every graph state and payload `v`, `add_node v` appends a
new occupied slot, returns the handle wrapping that slot's index, and `node`
on the returned handle yields `v`. -/
theorem add_node_spec (g : SimpleGraph N E) (v : N) :
    (add_node g v).2.nodes = g.nodes ++ [some v] ∧
    (add_node g v).1 = ⟨g.nodes.length⟩ ∧
    node (add_node g v).2 (add_node g v).1 = some v := by
  refine ⟨rfl, ?_, ?_⟩
  · show (⟨(g.nodes ++ [some v]).length - 1⟩ : NodeID) = ⟨g.nodes.length⟩
    simp
  · have hid : (add_node g v).1.id = g.nodes.length := by
      show (g.nodes ++ [some v]).length - 1 = g.nodes.length
      simp
    unfold node
    rw [hid, show (add_node g v).2.nodes = g.nodes ++ [some v] from rfl,
      List.getElem?_concat_length]

/-- Claim C9: `edge_from` and `edge_to` are total pure projections: they read
only the pair stored in the edge handle (independent of the graph state), and
on the handle returned by `add_edge a b v` they yield `a` and `b`. -/
theorem edge_endpoints_pure (g g' : SimpleGraph N E) (e : EdgeID)
    (g2 : SimpleGraph N E) (a b : NodeID) (v : E) :
    edge_to g e = ⟨e.id.2⟩ ∧ edge_from g e = ⟨e.id.1⟩ ∧
    edge_to g e = edge_to g' e ∧ edge_from g e = edge_from g' e ∧
    edge_from (add_edge g2 a b v).2 (add_edge g2 a b v).1 = a ∧
    edge_to (add_edge g2 a b v).2 (add_edge g2 a b v).1 = b :=
  ⟨rfl, rfl, rfl, rfl, rfl, rfl⟩

/-- Claim C1 (code-bug evidence): on `new()` followed by `add_node 42` the
node slot is occupied and the edge matrix holds no slot at all — yet
`remove_node` on the returned handle panics (models as `none`) because
`self.edges[0]` is indexed out of bounds, instead of returning `42`. -/
theorem remove_node_no_incident_bug :
    (add_node (SimpleGraph.new : SimpleGraph Nat Nat) 42).2.nodes = [some 42] ∧
    (add_node (SimpleGraph.new : SimpleGraph Nat Nat) 42).2.edges = [] ∧
    remove_node (add_node (SimpleGraph.new : SimpleGraph Nat Nat) 42).2
      (add_node (SimpleGraph.new : SimpleGraph Nat Nat) 42).1 = none :=
  ⟨rfl, rfl, rfl⟩

/-- Claim C2 counterexample: on the empty graph (row count 0) the claim says
`edges_from ⟨0⟩` yields the empty sequence; the code panics on the
out-of-bounds row index instead. -/
theorem edges_from_oob_cex :
    (SimpleGraph.new : SimpleGraph Unit Nat).edges.length = 0 ∧
    edges_from (SimpleGraph.new : SimpleGraph Unit Nat) ⟨0⟩ = none ∧
    edges_from (SimpleGraph.new : SimpleGraph Unit Nat) ⟨0⟩ ≠ some [] :=
  ⟨rfl, rfl, by decide⟩

/-- Claim C2 (amended): for every node handle whose index is at least the
current row count, `edges_from` is the fatal out-of-range condition (modelled
`none`), not an empty sequence. -/
theorem edges_from_oob (g : SimpleGraph N E) (n : NodeID)
    (h : g.edges.length ≤ n.id) : edges_from g n = none := by
  unfold edges_from
  rw [List.getElem?_eq_none h]

/-- Witness for `edges_from_oob` at the empty graph and index 0. -/
theorem edges_from_oob_witness :
    edges_from (SimpleGraph.new : SimpleGraph Unit Nat) ⟨0⟩ = none :=
  edges_from_oob (SimpleGraph.new : SimpleGraph Unit Nat) ⟨0⟩ (by decide)

/-- Claim C4: `add_edge a b e1` then `add_edge a b e2` leaves the single slot
of the ordered pair `(a, b)` holding `e2`, `edge` on the returned handle
yields `e2`, and the second handle equals the first in value. -/
theorem add_edge_overwrite (g : SimpleGraph N E) (a b : NodeID) (e1 e2 : E) :
    (add_edge (add_edge g a b e1).2 a b e2).1 = (add_edge g a b e1).1 ∧
    ((add_edge (add_edge g a b e1).2 a b e2).2.edges.getD a.id []).getD b.id none
      = some e2 ∧
    edge (add_edge (add_edge g a b e1).2 a b e2).2
      (add_edge (add_edge g a b e1).2 a b e2).1 = some e2 := by
  obtain ⟨R, hfst, -, -, hrow, -, hslot, -, -, -, -⟩ :=
    add_edge_state (add_edge g a b e1).2 a b e2
  refine ⟨rfl, ?_, ?_⟩
  · rw [List.getD_eq_getElem?_getD, List.getD_eq_getElem?_getD, hrow,
      Option.getD_some, hslot, Option.getD_some]
  · rw [hfst]
    exact edge_eq _ a.id b.id R hrow (some e2) hslot

/-- Claim C10: self-loops are permitted: `add_edge a a v` stores `v` at slot
`(a, a)`, `edge` on the returned handle yields `v`, and `edges_from a`
includes the returned handle. -/
theorem add_edge_self_loop (g : SimpleGraph N E) (a : NodeID) (v : E) :
    ((add_edge g a a v).2.edges.getD a.id []).getD a.id none = some v ∧
    edge (add_edge g a a v).2 (add_edge g a a v).1 = some v ∧
    ∃ l, edges_from (add_edge g a a v).2 a = some l ∧ (add_edge g a a v).1 ∈ l := by
  obtain ⟨R, hfst, -, -, hrow, -, hslot, -, -, -, -⟩ := add_edge_state g a a v
  refine ⟨?_, ?_, ?_⟩
  · rw [List.getD_eq_getElem?_getD, List.getD_eq_getElem?_getD, hrow,
      Option.getD_some, hslot, Option.getD_some]
  · rw [hfst]
    exact edge_eq _ a.id a.id R hrow (some v) hslot
  · refine ⟨_, edges_from_eq _ a R hrow, ?_⟩
    rw [hfst, List.enum_eq_enumFrom, mem_enumFrom_filterMap]
    refine ⟨a.id, ?_, ?_, ?_⟩
    · refine lt_length_of_getD_isSome R a.id ?_
      rw [List.getD_eq_getElem?_getD, hslot]
      rfl
    · rw [List.getD_eq_getElem?_getD, hslot]
      rfl
    · show (⟨(a.id, a.id)⟩ : EdgeID) = ⟨(a.id, 0 + a.id)⟩
      rw [Nat.zero_add]

/-- Claim C6: for every node handle whose index has a row in the edge matrix,
`edges_from` succeeds and returns exactly the handles of the occupied slots of
that row — membership holds precisely for pairs `(n, j)` with slot `j`
occupied — ordered by strictly ascending destination index. -/
theorem edges_from_spec (g : SimpleGraph N E) (n : NodeID)
    (h : n.id < g.edges.length) :
    ∃ l, edges_from g n = some l ∧
      (∀ e : EdgeID, e ∈ l ↔
        e.id.1 = n.id ∧ ((g.edges.getD n.id []).getD e.id.2 none).isSome) ∧
      l.Pairwise (fun x y => x.id.2 < y.id.2) := by
  obtain ⟨R, hR⟩ : ∃ R, g.edges[n.id]? = some R := by
    cases hcase : g.edges[n.id]? with
    | none =>
      rw [List.getElem?_eq_none_iff] at hcase
      omega
    | some R => exact ⟨R, rfl⟩
  have hRD : g.edges.getD n.id [] = R := by
    rw [List.getD_eq_getElem?_getD, hR]
    rfl
  refine ⟨_, edges_from_eq g n R hR, ?_, ?_⟩
  · intro e
    rw [List.enum_eq_enumFrom, mem_enumFrom_filterMap, hRD]
    constructor
    · rintro ⟨j, hj, hs, rfl⟩
      refine ⟨rfl, ?_⟩
      show (R.getD (0 + j) none).isSome = true
      rw [Nat.zero_add]
      exact hs
    · rintro ⟨h1, h2⟩
      refine ⟨e.id.2, lt_length_of_getD_isSome R e.id.2 h2, h2, ?_⟩
      obtain ⟨⟨x, y⟩⟩ := e
      have h1x : x = n.id := h1
      subst h1x
      show (⟨(n.id, y)⟩ : EdgeID) = ⟨(n.id, 0 + y)⟩
      rw [Nat.zero_add]
  · rw [List.enum_eq_enumFrom]
    exact pairwise_enumFrom_filterMap R 0 n.id

/-- Witness for `edges_from_spec` at the sample graph and node 0. -/
theorem edges_from_spec_witness :
    (⟨0⟩ : NodeID).id < sample.edges.length ∧
    ∃ l, edges_from sample ⟨0⟩ = some l ∧
      (∀ e : EdgeID, e ∈ l ↔
        e.id.1 = (⟨0⟩ : NodeID).id ∧
        ((sample.edges.getD (⟨0⟩ : NodeID).id []).getD e.id.2 none).isSome) ∧
      l.Pairwise (fun x y => x.id.2 < y.id.2) :=
  ⟨by decide, edges_from_spec sample ⟨0⟩ (by decide)⟩

/-- Claim C8: if the node's outgoing row contains an occupied slot, or any
row's slot at the node's index is occupied, `remove_node` is fatal: it
returns no value (the model of the panic). -/
theorem remove_node_incident_fatal (g : SimpleGraph N E) (n : NodeID)
    (h : (∃ s ∈ g.edges.getD n.id [], s.isSome) ∨
         (∃ row ∈ g.edges, (row.getD n.id none).isSome)) :
    remove_node g n = none := by
  unfold remove_node
  cases hrow : g.edges[n.id]? with
  | none => rfl
  | some row =>
    by_cases hall : row.all (fun toNode => toNode.isNone)
    · have hcc : checkColumn g.edges n.id = none := by
        rcases h with h1 | h2
        · exfalso
          obtain ⟨s, hs, hsome⟩ := h1
          rw [List.getD_eq_getElem?_getD, hrow, Option.getD_some] at hs
          have hnone := List.all_eq_true.mp hall s hs
          cases s
          · simp at hsome
          · simp at hnone
        · exact checkColumn_none g.edges n.id h2
      simp [hall, hcc]
    · simp [hall]

/-- Witness for `remove_node_incident_fatal`: node 1 of the sample graph has
an occupied incoming slot (0,1), so its removal is fatal. -/
theorem remove_node_incident_fatal_witness :
    ((∃ s ∈ sample.edges.getD 1 [], s.isSome) ∨
      (∃ row ∈ sample.edges, (row.getD 1 none).isSome)) ∧
    remove_node sample ⟨1⟩ = none :=
  ⟨by decide, remove_node_incident_fatal sample ⟨1⟩ (by decide)⟩

/-- Claim C7 counterexample: adding the self-loop edge (0,0) to the empty
matrix creates row 0 freshly, and that newly created row is not empty (the
written slot lies in it), refuting "every newly created row ... empty". -/
theorem add_edge_growth_cex :
    (SimpleGraph.new : SimpleGraph Unit Nat).edges.length = 0 ∧
    (add_edge (SimpleGraph.new : SimpleGraph Unit Nat) ⟨0⟩ ⟨0⟩ 10).2.edges
      = [[some 10]] ∧
    (add_edge (SimpleGraph.new : SimpleGraph Unit Nat) ⟨0⟩ ⟨0⟩ 10).2.edges.getD 0 []
      ≠ ([] : List (Option Nat)) :=
  ⟨rfl, by decide, by decide⟩

/-- Claim C7 (amended): after `add_edge a b v` the matrix has at least
`max a b + 1` rows and row `a` at least `b + 1` columns; every newly created
row other than row `a` is empty and every newly created slot of row `a` other
than column `b` is empty, while slot `(a, b)` holds `v`; and under every
operation (`add_node`, `add_edge`, `remove_edge`, `remove_node`) the row
count and each existing row's length never decrease. -/
theorem add_edge_growth (g : SimpleGraph N E) (a b : NodeID) (v : E) (w : N) :
    max a.id b.id + 1 ≤ (add_edge g a b v).2.edges.length ∧
    b.id + 1 ≤ ((add_edge g a b v).2.edges.getD a.id []).length ∧
    (∀ i, i ≠ a.id → g.edges.length ≤ i →
      (add_edge g a b v).2.edges.getD i [] = []) ∧
    (∀ j, j ≠ b.id → (g.edges.getD a.id []).length ≤ j →
      ((add_edge g a b v).2.edges.getD a.id []).getD j none = none) ∧
    ((add_edge g a b v).2.edges.getD a.id []).getD b.id none = some v ∧
    g.edges.length ≤ (add_edge g a b v).2.edges.length ∧
    (∀ i, (g.edges.getD i []).length ≤ ((add_edge g a b v).2.edges.getD i []).length) ∧
    (add_node g w).2.edges = g.edges ∧
    (∀ e p, remove_edge g e = some p →
      p.2.edges.length = g.edges.length ∧
      ∀ i, (p.2.edges.getD i []).length = (g.edges.getD i []).length) ∧
    (∀ m p, remove_node g m = some p → p.2.edges = g.edges) := by
  obtain ⟨R, -, -, hlen, hrowSome, hRlen, hslot, hold, hpad, hkeep, hnew⟩ :=
    add_edge_state g a b v
  have hgetD : (add_edge g a b v).2.edges.getD a.id [] = R := by
    rw [List.getD_eq_getElem?_getD, hrowSome]
    rfl
  refine ⟨by omega, ?_, ?_, ?_, ?_, by omega, ?_, rfl, ?_, ?_⟩
  · rw [hgetD, hRlen]
    omega
  · intro i hi hi2
    rcases Nat.lt_or_ge i (add_edge g a b v).2.edges.length with hlt | hge
    · rw [List.getD_eq_getElem?_getD, hnew i hi hi2 hlt]
      rfl
    · rw [List.getD_eq_getElem?_getD, List.getElem?_eq_none hge]
      rfl
  · intro j hj hj2
    rw [hgetD]
    rcases Nat.lt_or_ge j (b.id + 1) with hlt | hge
    · rw [List.getD_eq_getElem?_getD, hpad j hj hj2 hlt]
      rfl
    · have hout : R.length ≤ j := by
        rw [hRlen]
        omega
      rw [List.getD_eq_getElem?_getD, List.getElem?_eq_none hout]
      rfl
  · rw [hgetD, List.getD_eq_getElem?_getD, hslot]
    rfl
  · intro i
    by_cases hia : i = a.id
    · subst hia
      rw [hgetD, hRlen]
      omega
    · rcases Nat.lt_or_ge i g.edges.length with hlt | hge
      · have heq : (add_edge g a b v).2.edges.getD i [] = g.edges.getD i [] := by
          rw [List.getD_eq_getElem?_getD, hkeep i hia hlt, ← List.getD_eq_getElem?_getD]
        rw [heq]
      · have h0 : g.edges.getD i [] = [] := by
          rw [List.getD_eq_getElem?_getD, List.getElem?_eq_none hge]
          rfl
        rw [h0]
        exact Nat.zero_le _
  · intro e p hp
    obtain ⟨row, hrow, hslot2, hpe⟩ := remove_edge_some g e p hp
    have hlt : e.id.1 < g.edges.length := by
      by_contra hc
      rw [List.getElem?_eq_none (by omega)] at hrow
      simp at hrow
    constructor
    · rw [hpe]
      exact List.length_set g.edges e.id.1 _
    · intro i
      rw [hpe]
      by_cases hie : i = e.id.1
      · subst hie
        have hL : (g.edges.set e.id.1 (row.set e.id.2 none)).getD e.id.1 []
            = row.set e.id.2 none := by
          rw [List.getD_eq_getElem?_getD, List.getElem?_set_self hlt]
          rfl
        have hRrow : g.edges.getD e.id.1 [] = row := by
          rw [List.getD_eq_getElem?_getD, hrow]
          rfl
        rw [hL, hRrow, List.length_set]
      · have heq : (g.edges.set e.id.1 (row.set e.id.2 none)).getD i []
            = g.edges.getD i [] := by
          rw [List.getD_eq_getElem?_getD, List.getElem?_set_ne (Ne.symm hie),
            ← List.getD_eq_getElem?_getD]
        rw [heq]
  · intro m p hp
    exact (remove_node_some g m p hp).1

/-- Witness for `add_edge_growth`: instantiation at the square sample graph,
adding edge (0,4), with every nested hypothesis discharged at a concrete
index or concrete removal result. -/
theorem add_edge_growth_witness :
    (max 0 4 + 1 ≤ (add_edge sample2 ⟨0⟩ ⟨4⟩ 7).2.edges.length) ∧
    ((add_edge sample2 ⟨0⟩ ⟨4⟩ 7).2.edges.getD 3 [] = []) ∧
    (((add_edge sample2 ⟨0⟩ ⟨4⟩ 7).2.edges.getD 0 []).getD 3 none = none) ∧
    (((add_edge sample2 ⟨0⟩ ⟨4⟩ 7).2.edges.getD 0 []).getD 4 none = some 7) ∧
    ((sample2.edges.getD 1 []).length ≤
      ((add_edge sample2 ⟨0⟩ ⟨4⟩ 7).2.edges.getD 1 []).length) ∧
    ((add_node sample2 ()).2.edges = sample2.edges) ∧
    ((5, ({ nodes := [some (), some (), some ()],
            edges := [[none, none, none], [none, none, none], [none, none, none]] }
          : SimpleGraph Unit Nat)).2.edges.length = sample2.edges.length) ∧
    (((), ({ nodes := [some (), none, some ()],
             edges := [[none, none, some 5], [none, none, none], [none, none, none]] }
           : SimpleGraph Unit Nat)).2.edges = sample2.edges) := by
  have h := add_edge_growth sample2 ⟨0⟩ ⟨4⟩ (7 : Nat) ()
  exact ⟨h.1, h.2.2.1 3 (by decide) (by decide), h.2.2.2.1 3 (by decide) (by decide),
    h.2.2.2.2.1, h.2.2.2.2.2.2.1 1, h.2.2.2.2.2.2.2.1,
    (h.2.2.2.2.2.2.2.2.1 ⟨(0, 2)⟩ _ (by decide)).1,
    h.2.2.2.2.2.2.2.2.2 ⟨1⟩ _ (by decide)⟩

/-- Claim C3 (code-bug evidence): the concrete scenario.  Adding nodes
n0,n1,n2 and edges n0→n1 (10), n0→n2 (20): `edges_from n0` yields the handles
(0,1) then (0,2), `edge (0,1)` is 10, removing n0 before the edges is fatal
(as claimed), removing the two edges returns 10 then 20 — but the final
removals do not succeed: `remove_node n0` on the cleared graph still panics
(rows 1 and 2 are empty vectors, so `from_node[0]` is out of bounds),
contradicting the claim that it returns the payload. -/
theorem scenario_remove_after_clear_bug :
    (add_node (SimpleGraph.new : SimpleGraph Unit Nat) ()).1 = ⟨0⟩ ∧
    (add_node (add_node (SimpleGraph.new : SimpleGraph Unit Nat) ()).2 ()).1 = ⟨1⟩ ∧
    (add_node (add_node (add_node (SimpleGraph.new : SimpleGraph Unit Nat) ()).2 ()).2 ()).1
      = ⟨2⟩ ∧
    (let g3 := (add_node (add_node (add_node
        (SimpleGraph.new : SimpleGraph Unit Nat) ()).2 ()).2 ()).2
     let r01 := add_edge g3 ⟨0⟩ ⟨1⟩ 10
     let r02 := add_edge r01.2 ⟨0⟩ ⟨2⟩ 20
     r01.1 = ⟨(0, 1)⟩ ∧
     r02.1 = ⟨(0, 2)⟩ ∧
     edges_from r02.2 ⟨0⟩ = some [⟨(0, 1)⟩, ⟨(0, 2)⟩] ∧
     edge r02.2 ⟨(0, 1)⟩ = some 10 ∧
     remove_node r02.2 ⟨0⟩ = none ∧
     (remove_edge r02.2 ⟨(0, 1)⟩).map Prod.fst = some 10 ∧
     (let g6 := ((remove_edge r02.2 ⟨(0, 1)⟩).map Prod.snd).getD r02.2
      (remove_edge g6 ⟨(0, 2)⟩).map Prod.fst = some 20 ∧
      (let g7 := ((remove_edge g6 ⟨(0, 2)⟩).map Prod.snd).getD g6
       g7.nodes = [some (), some (), some ()] ∧
       g7.edges = [[none, none, none], [], []] ∧
       remove_node g7 ⟨0⟩ = none))) := by
  decide

end Graphs
